import Mathlib

/-!
Verification development for the RealEstate-Writing-Assistant frontend
(`src/frontend/src/App.jsx`).  The file shallowly embeds the two React `App`
components' logic:

* the generic writing-assistant variant: `generateRegular` (lines 61-95),
  `generateStreaming` (lines 101-178), `handleSubmit` (lines 184-201) and the
  submit-button guard (lines 279-285);
* the real-estate listing variant: `renderMarkdown` (lines 339-348),
  `handleRegenerateDescription` (lines 453-470) and `handleRegenerateSocial`
  (lines 472-489).

JavaScript strings are modelled as `List Char` (`Str`); raw network bytes as
`List Nat`.  All definitions are computable so that concrete runs can be
settled with `decide`.
-/

namespace App

/-- JavaScript strings, modelled as lists of characters. -/
abbrev Str := List Char

/-- JS `chunk.split('\n')` (App.jsx line 154): split a string at every
newline, keeping empty segments, e.g. `"a\n\nb" ↦ ["a", "", "b"]`. -/
def splitNl : Str → List Str
  | [] => [[]]
  | ch :: rest =>
    if ch = '\n' then [] :: splitNl rest
    else
      match splitNl rest with
      | [] => [[ch]]
      | s :: tail => (ch :: s) :: tail

/-- The body of the `for (const line of lines)` loop of `generateStreaming`
(App.jsx lines 156-172), folded over the lines of the chunks read so far:
a line not starting with `"data: "` is skipped (`continue`, line 158);
otherwise `data = line.slice(6)` (line 161); `data === '[DONE]'` is skipped
(line 164); `data.startsWith('[ERROR]')` throws, aborting with the payload as
the error message (lines 165-167); any other payload is appended to the
content (line 171).  Returns the content together with `some thrownMessage`
when a throw aborted the loop. -/
def processLines : Str → List Str → Str × Option Str
  | c, [] => (c, none)
  | c, line :: rest =>
    if "data: ".toList.isPrefixOf line then
      if line.drop 6 = "[DONE]".toList then processLines c rest
      else if "[ERROR]".toList.isPrefixOf (line.drop 6) then (c, some (line.drop 6))
      else processLines (c ++ line.drop 6) rest
    else processLines c rest

/-- The `while (true)` read loop of `generateStreaming` (App.jsx lines
142-173): each chunk is split on `'\n'` independently (line 154 — note there
is no carry-over of a trailing partial line to the next chunk) and its lines
are processed; a throw from a `[ERROR]` frame aborts the outer loop too. -/
def processChunks : Str → List Str → Str × Option Str
  | c, [] => (c, none)
  | c, chunk :: rest =>
    match processLines c (splitNl chunk) with
    | (c2, none) => processChunks c2 rest
    | (c2, some e) => (c2, some e)

/-- `generateStreaming` (App.jsx lines 101-178) after a successful response:
content is cleared (line 139), the chunks are consumed by the read loop, and
the `catch` block (lines 175-177) turns a thrown message `m` into the
caller-visible error `"Error: " ++ m` while leaving the content untouched.
`netErr = some m` models a network-level failure raised by `reader.read()`
after the listed chunks (an earlier failure is the same run on a shorter
chunk list). -/
def generateStreaming (chunks : List Str) (netErr : Option Str) : Str × Option Str :=
  match processChunks [] chunks with
  | (c, some e) => (c, some ("Error: ".toList ++ e))
  | (c, none) =>
    match netErr with
    | some m => (c, some ("Error: ".toList ++ m))
    | none => (c, none)

/-! ### Stateful UTF-8 decoding (WHATWG `TextDecoder`)

`generateStreaming` creates one `TextDecoder` (line 136) but calls
`decoder.decode(value)` with no options (line 150).  Per the WHATWG Encoding
standard, `decode` without `{stream: true}` flushes at the end of every call:
a pending incomplete multi-byte sequence becomes U+FFFD and the state is
reset, so consecutive calls decode each chunk independently. -/

/-- The Unicode replacement character U+FFFD. -/
def repl : Char := Char.ofNat 0xFFFD

/-- State of the WHATWG UTF-8 decoder: accumulated code point, number of
continuation bytes still needed, and the admissible range for the next
continuation byte. -/
structure DecState where
  codepoint : Nat
  needed : Nat
  lower : Nat
  upper : Nat
deriving DecidableEq, Repr

/-- Initial decoder state. -/
def decInit : DecState := ⟨0, 0, 0x80, 0xBF⟩

/-- WHATWG UTF-8 decoder, consuming one byte in the "no pending sequence"
state: ASCII is emitted directly, lead bytes set up a pending sequence with
the standard lower/upper boundaries, anything else is an error (U+FFFD). -/
def decStartByte (b : Nat) : List Char × DecState :=
  if b ≤ 0x7F then ([Char.ofNat b], decInit)
  else if 0xC2 ≤ b ∧ b ≤ 0xDF then ([], ⟨b % 32, 1, 0x80, 0xBF⟩)
  else if 0xE0 ≤ b ∧ b ≤ 0xEF then
    ([], ⟨b % 16, 2, if b = 0xE0 then 0xA0 else 0x80, if b = 0xED then 0x9F else 0xBF⟩)
  else if 0xF0 ≤ b ∧ b ≤ 0xF4 then
    ([], ⟨b % 8, 3, if b = 0xF0 then 0x90 else 0x80, if b = 0xF4 then 0x8F else 0xBF⟩)
  else ([repl], decInit)

/-- WHATWG UTF-8 decoder, one byte in an arbitrary state.  An out-of-range
byte in the middle of a sequence emits U+FFFD and reprocesses the byte from
the initial state. -/
def decByte (st : DecState) (b : Nat) : List Char × DecState :=
  if st.needed = 0 then decStartByte b
  else if st.lower ≤ b ∧ b ≤ st.upper then
    if st.needed = 1 then ([Char.ofNat (st.codepoint * 64 + b % 64)], decInit)
    else ([], ⟨st.codepoint * 64 + b % 64, st.needed - 1, 0x80, 0xBF⟩)
  else
    let p := decStartByte b
    (repl :: p.1, p.2)

/-- Run the UTF-8 decoder over a byte list, threading the state. -/
def decBytes (st : DecState) : List Nat → List Char × DecState
  | [] => ([], st)
  | b :: bs =>
    let p := decByte st b
    let q := decBytes p.2 bs
    (p.1 ++ q.1, q.2)

/-- `decoder.decode(value)` with default options (App.jsx line 150): decode
the chunk from the initial state and flush — an incomplete trailing sequence
becomes U+FFFD.  Each call is independent of the previous one. -/
def decodeNoStream (bs : List Nat) : Str :=
  let p := decBytes decInit bs
  p.1 ++ (if p.2.needed = 0 then [] else [repl])

/-- Bytes of an ASCII string (UTF-8 of ASCII is the identity). -/
def asciiBytes (s : String) : List Nat := s.toList.map Char.toNat

/-- The full byte-level read loop of `generateStreaming`: each raw chunk is
decoded by an independent `decode` call (line 150, no `{stream: true}`) and
then parsed. -/
def generateStreamingBytes (chunks : List (List Nat)) (netErr : Option Str) :
    Str × Option Str :=
  generateStreaming (chunks.map decodeNoStream) netErr

end App

namespace App

/-! ### Claims C1-C3: evaluations of the read loop -/

/-- C1: the streaming consumer is claimed to accumulate the same result
however the bytes are split across chunks, with the example
`["data: Hello", " world\n\ndata: [DONE]\n\n"]` accumulating
`"Hello world"`.  Evaluating the embedded read loop: the split input
accumulates only `"Hello"` (the continuation `" world"` of the line split
across the chunk boundary does not start with `"data: "` and is dropped by
line 158), while the same bytes in a single chunk accumulate
`"Hello world"`.  The code is therefore not split-invariant and contradicts
the claimed example. -/
theorem c1_chunk_split_evaluation :
    generateStreaming ["data: Hello".toList, " world\n\ndata: [DONE]\n\n".toList] none
      = ("Hello".toList, none) ∧
    generateStreaming ["data: Hello world\n\ndata: [DONE]\n\n".toList] none
      = ("Hello world".toList, none) ∧
    ("Hello".toList : Str) ≠ "Hello world".toList := by
  decide

/-- C2: the consumer is claimed to decode with a stateful incremental decoder
so a multi-byte character split across a chunk boundary is reassembled.
Evaluating the embedded code: `decoder.decode(value)` is called without
`{stream: true}` (line 150), so each chunk flushes independently; the UTF-8
bytes `0xC3 0xA9` of `'é'` split across two chunks decode to two U+FFFD
replacement characters, and the full pipeline accumulates `[repl]` instead of
`['é']` — while the same bytes arriving in one chunk accumulate `['é']`. -/
theorem c2_decoder_flush_evaluation :
    decodeNoStream [0xC3] ++ decodeNoStream [0xA9] = [repl, repl] ∧
    decodeNoStream [0xC3, 0xA9] = ['é'] ∧
    (generateStreamingBytes [asciiBytes "data: " ++ [0xC3], [0xA9] ++ asciiBytes "\n\n"] none).1
      = [repl] ∧
    (generateStreamingBytes [asciiBytes "data: " ++ [0xC3, 0xA9] ++ asciiBytes "\n\n"] none).1
      = ['é'] := by
  decide

/-- C3 (counterexample): the claim says the consumer stops reading further
events from the stream upon receipt of a `[DONE]` frame.  If it did, the two
streams below — identical up to and including the `[DONE]` frame — would
yield the same outcome; the embedded code instead keeps reading (line 164 is
a `continue`, not a `break`) and accumulates the `"X"` frame that follows
`[DONE]`. -/
theorem c3_counterexample :
    generateStreaming ["data: [DONE]\n\n".toList] none
      ≠ generateStreaming ["data: [DONE]\n\ndata: X\n\n".toList] none := by
  decide

/-- C3 (amended): a `[DONE]` frame appends nothing to the accumulated result
and causes no error, but the consumer does not stop: it skips the frame and
continues processing the remaining lines exactly as if the frame were absent. -/
theorem c3_done_skipped_continues (c : Str) (ls₁ ls₂ : List Str) :
    processLines c (ls₁ ++ "data: [DONE]".toList :: ls₂)
      = processLines c (ls₁ ++ ls₂) := by
  induction ls₁ generalizing c with
  | nil => rfl
  | cons l t ih =>
    simp only [List.cons_append, processLines]
    split_ifs <;> first | rfl | apply ih

/-! ### Claims C4 and C6: error frames and partial output -/

/-- Helper: a line `"data: " ++ d` whose payload `d` starts with `"[ERROR]"`
makes the loop throw immediately: remaining lines are not processed, the
content is unchanged, and the thrown message is the payload `d`. -/
lemma processLines_errorFrame (c d : Str) (rest : List Str)
    (hd : "[ERROR]".toList.isPrefixOf d = true) :
    processLines c (("data: ".toList ++ d) :: rest) = (c, some d) := by
  have hp : "data: ".toList.isPrefixOf ("data: ".toList ++ d) = true :=
    List.isPrefixOf_iff_prefix.mpr (List.prefix_append _ _)
  have h6 : ("data: ".toList).length = 6 := rfl
  have hdrop : ("data: ".toList ++ d).drop 6 = d := by
    rw [← h6, List.drop_left]
  have hne : d ≠ "[DONE]".toList := by
    intro h
    rw [h] at hd
    exact absurd hd (by decide)
  simp only [processLines, hp, if_true, hdrop, hne, if_false, hd, ite_true, ite_false]

/-- Helper: `splitNl` distributes over the first newline when the part before
it contains none. -/
lemma splitNl_append_nl (xs ys : Str) (hx : '\n' ∉ xs) :
    splitNl (xs ++ '\n' :: ys) = xs :: splitNl ys := by
  induction xs with
  | nil => simp [splitNl]
  | cons ch t ih =>
    have hch : ch ≠ '\n' := fun h => hx (h ▸ List.mem_cons_self ch t)
    have ht : '\n' ∉ t := fun h => hx (List.mem_cons_of_mem ch h)
    simp only [List.cons_append, splitNl, hch, if_false, ite_false]
    rw [show t.append ('\n' :: ys) = t ++ '\n' :: ys from rfl, ih ht]

/-- Helper: when a chunk list is fully consumed without a throw, processing a
longer list resumes from the reached content. -/
lemma processChunks_append_ok (a : List Str) :
    ∀ (c c' : Str) (b : List Str), processChunks c a = (c', none) →
      processChunks c (a ++ b) = processChunks c' b := by
  induction a with
  | nil =>
    intro c c' b h
    simp only [processChunks] at h
    have hc : c = c' := congrArg Prod.fst h
    rw [List.nil_append, hc]
  | cons ch t ih =>
    intro c c' b h
    simp only [processChunks, List.cons_append] at h ⊢
    cases hpl : processLines c (splitNl ch) with
    | mk c₂ e =>
      rw [hpl] at h
      cases e with
      | none => exact ih c₂ c' b h
      | some m => exact absurd (congrArg Prod.snd h) (by simp)

/-- C4: a frame whose payload starts with `"[ERROR]"` makes the consumer
throw at once: the rest of the current chunk and all later chunks are ignored,
nothing of the payload is appended, and the caller-visible error message is
`"Error: " ++ payload` (the `catch` block at lines 175-177 formats the thrown
payload), which surfaces the payload.  Stated both at the line level (content
`c` already accumulated is untouched) and for a stream whose first frame is
the error frame (content stays empty). -/
theorem c4_error_frame_aborts (c d : Str) (rest : List Str) (chs : List Str)
    (hd : "[ERROR]".toList.isPrefixOf d = true) (hnl : '\n' ∉ d) :
    processLines c (("data: ".toList ++ d) :: rest) = (c, some d) ∧
    generateStreaming (("data: ".toList ++ d ++ ['\n', '\n']) :: chs) none
      = ([], some ("Error: ".toList ++ d)) := by
  refine ⟨processLines_errorFrame c d rest hd, ?_⟩
  have hx : '\n' ∉ ("data: ".toList ++ d) := by
    intro h
    rcases List.mem_append.mp h with h | h
    · exact absurd h (by decide)
    · exact hnl h
  have hsplit : splitNl (("data: ".toList ++ d) ++ '\n' :: ['\n'])
      = ("data: ".toList ++ d) :: splitNl ['\n'] := splitNl_append_nl _ _ hx
  have hsplit2 : splitNl (['\n'] : Str) = [[], []] := by decide
  unfold generateStreaming processChunks
  rw [show "data: ".toList ++ d ++ ['\n', '\n']
        = ("data: ".toList ++ d) ++ '\n' :: ['\n'] by simp,
      hsplit, hsplit2, processLines_errorFrame [] d [[], []] hd]

/-- C4 witness at `c = "abc"`, payload `"[ERROR] rate limited"`. -/
theorem c4_error_frame_aborts_witness :
    "[ERROR]".toList.isPrefixOf "[ERROR] rate limited".toList = true ∧
    '\n' ∉ "[ERROR] rate limited".toList ∧
    (processLines "abc".toList
        (("data: ".toList ++ "[ERROR] rate limited".toList) :: ["data: x".toList])
      = ("abc".toList, some "[ERROR] rate limited".toList) ∧
    generateStreaming
        (("data: ".toList ++ "[ERROR] rate limited".toList ++ ['\n', '\n'])
          :: ["data: y\n\n".toList]) none
      = ([], some ("Error: ".toList ++ "[ERROR] rate limited".toList))) :=
  ⟨by decide, by decide,
    c4_error_frame_aborts "abc".toList "[ERROR] rate limited".toList
      ["data: x".toList] ["data: y\n\n".toList] (by decide) (by decide)⟩

/-- C6: if a mid-stream failure occurs after some chunks were consumed
without error (accumulated content `c`), the content already shown is kept,
not rolled back: an `[ERROR]` frame yields `(c, some ("Error: " ++ d))` and a
network-level read failure with message `m` yields
`(c, some ("Error: " ++ m))` — in both cases the first component is still
`c`. -/
theorem c6_partial_preserved (chs₁ : List Str) (c d m : Str) (chs₂ : List Str)
    (h1 : processChunks [] chs₁ = (c, none))
    (hd : "[ERROR]".toList.isPrefixOf d = true) (hnl : '\n' ∉ d) :
    generateStreaming (chs₁ ++ ("data: ".toList ++ d ++ ['\n', '\n']) :: chs₂) none
      = (c, some ("Error: ".toList ++ d)) ∧
    generateStreaming chs₁ (some m) = (c, some ("Error: ".toList ++ m)) := by
  constructor
  · have hx : '\n' ∉ ("data: ".toList ++ d) := by
      intro h
      rcases List.mem_append.mp h with h | h
      · exact absurd h (by decide)
      · exact hnl h
    have hsplit : splitNl (("data: ".toList ++ d) ++ '\n' :: ['\n'])
        = ("data: ".toList ++ d) :: splitNl ['\n'] := splitNl_append_nl _ _ hx
    have hsplit2 : splitNl (['\n'] : Str) = [[], []] := by decide
    unfold generateStreaming
    rw [processChunks_append_ok chs₁ [] c _ h1]
    unfold processChunks
    rw [show "data: ".toList ++ d ++ ['\n', '\n']
          = ("data: ".toList ++ d) ++ '\n' :: ['\n'] by simp,
        hsplit, hsplit2, processLines_errorFrame c d [[], []] hd]
  · unfold generateStreaming
    rw [h1]

/-- C6 witness: one successful `"Hello"` delta, then an error frame
`"[ERROR] boom"` (resp. a network failure `"Failed to fetch"`); the `"Hello"`
already accumulated is preserved. -/
theorem c6_partial_preserved_witness :
    processChunks [] ["data: Hello\n\n".toList] = ("Hello".toList, none) ∧
    "[ERROR]".toList.isPrefixOf "[ERROR] boom".toList = true ∧
    '\n' ∉ "[ERROR] boom".toList ∧
    (generateStreaming
        (["data: Hello\n\n".toList]
          ++ ("data: ".toList ++ "[ERROR] boom".toList ++ ['\n', '\n']) :: []) none
      = ("Hello".toList, some ("Error: ".toList ++ "[ERROR] boom".toList)) ∧
    generateStreaming ["data: Hello\n\n".toList] (some "Failed to fetch".toList)
      = ("Hello".toList, some ("Error: ".toList ++ "Failed to fetch".toList))) :=
  ⟨by decide, by decide, by decide,
    c6_partial_preserved ["data: Hello\n\n".toList] "Hello".toList
      "[ERROR] boom".toList "Failed to fetch".toList []
      (by decide) (by decide) (by decide)⟩

/-! ### Request orchestrator: submit guard, non-streaming path, reset -/

/-- States of the request orchestrator of the spec (section 4.3). -/
inductive OrchState where
  | Idle
  | Submitting
  | Streaming
  | Completed
  | Failed
deriving DecidableEq, Repr

/-- Whitespace as recognised by JS `String.prototype.trim` (the characters
relevant here; a subset of the full WhiteSpace/LineTerminator productions). -/
def isJsWs (ch : Char) : Bool :=
  ch = ' ' || ch = '\t' || ch = '\n' || ch = '\r' || ch = '\x0b' || ch = '\x0c'
    || ch = '\u00A0' || ch = '\uFEFF'

/-- JS `prompt.trim()`: strip whitespace from both ends. -/
def jsTrim (s : Str) : Str :=
  ((s.dropWhile isJsWs).reverse.dropWhile isJsWs).reverse

/-- The submit button guard (App.jsx line 281):
`disabled={isLoading || !prompt.trim()}`.  A disabled submit button means the
form cannot be submitted, so `handleSubmit` never runs. -/
def submitDisabled (isLoading : Bool) (prompt : Str) : Bool :=
  isLoading || (jsTrim prompt).isEmpty

/-- A submission attempt from `Idle`: if the button is disabled nothing
happens (zero fetches, still `Idle`); otherwise `handleSubmit` runs and
issues exactly one fetch, entering the request lifecycle.  Returns the number
of network calls issued and the orchestrator state reached by the attempt
itself. -/
def attemptSubmit (prompt : Str) (isLoading : Bool) : Nat × OrchState :=
  if submitDisabled isLoading prompt then (0, OrchState.Idle)
  else (1, OrchState.Submitting)

/-- An HTTP response as seen by `generateRegular`: `ok` and `status` from the
`Response` object, `content` the `content` field of the parsed JSON body. -/
structure HttpResp where
  ok : Bool
  status : Nat
  content : Str
deriving DecidableEq, Repr

/-- Decimal rendering of a status code, as interpolated by the template
literal at App.jsx line 86. -/
def natToStr (n : Nat) : Str := (toString n).toList

/-- `generateRegular` (App.jsx lines 61-95): on `response.ok` the body's
`content` is stored; on a non-ok status the function throws
`HTTP error! status: ${status}` (line 86) and the `catch` (lines 92-94) sets
the error to `"Error: " ++ message`, with the content left as it was
(`prevContent`). -/
def generateRegular (prevContent : Str) (resp : HttpResp) : Str × Option Str :=
  if resp.ok then (resp.content, none)
  else (prevContent, some ("Error: HTTP error! status: ".toList ++ natToStr resp.status))

/-- The terminal orchestrator state of a finished request outcome: an error
means `Failed`, otherwise `Completed`. -/
def stateOf (r : Str × Option Str) : OrchState :=
  match r.2 with
  | some _ => OrchState.Failed
  | none => OrchState.Completed

/-- The React state touched by `handleSubmit` (content, error, isLoading). -/
structure AppState where
  content : Str
  error : Option Str
  isLoading : Bool
deriving DecidableEq, Repr

/-- `handleSubmit` (App.jsx lines 184-201): resets error and content to empty
(lines 189-190), sets `isLoading` (line 191), runs the chosen generation
function — which operates on the freshly cleared content — and clears
`isLoading` (line 200).  The previous state `s` is discarded by the reset. -/
def handleSubmit (_prev : AppState) (useStreaming : Bool) (chunks : List Str)
    (netErr : Option Str) (resp : HttpResp) : AppState :=
  let r := if useStreaming then generateStreaming chunks netErr
           else generateRegular [] resp
  { content := r.1, error := r.2, isLoading := false }

/-- C5: an empty or whitespace-only prompt disables the submit button, so a
submission attempt issues no network call and leaves the orchestrator in
`Idle`. -/
theorem c5_whitespace_prompt_idle (prompt : Str)
    (h : ∀ ch ∈ prompt, isJsWs ch = true) :
    attemptSubmit prompt false = (0, OrchState.Idle) := by
  have h1 : jsTrim prompt = [] := by
    unfold jsTrim
    rw [List.dropWhile_eq_nil_iff.mpr h]
    rfl
  simp [attemptSubmit, submitDisabled, h1]

/-- C5 witness at the whitespace-only prompt `"  \t "` (and the empty prompt
is the `[]` instance of the same hypothesis). -/
theorem c5_whitespace_prompt_idle_witness :
    (∀ ch ∈ "  \t ".toList, isJsWs ch = true) ∧
    attemptSubmit "  \t ".toList false = (0, OrchState.Idle) :=
  ⟨by decide, c5_whitespace_prompt_idle "  \t ".toList (by decide)⟩

/-- C7: in non-streaming mode a non-ok HTTP response makes `generateRegular`
return the previous content unchanged together with the error message
`Error: HTTP error! status: <code>`; the orchestrator therefore ends in
`Failed`, and the rendered status code is contained (as a suffix) in the
message. -/
theorem c7_http_failure (prevC : Str) (resp : HttpResp) (h : resp.ok = false) :
    generateRegular prevC resp
      = (prevC, some ("Error: HTTP error! status: ".toList ++ natToStr resp.status)) ∧
    stateOf (generateRegular prevC resp) = OrchState.Failed ∧
    natToStr resp.status <:+ ("Error: HTTP error! status: ".toList ++ natToStr resp.status) := by
  refine ⟨?_, ?_, List.suffix_append _ _⟩ <;> simp [generateRegular, stateOf, h]

/-- C7 witness at an HTTP 500 response with prior content `"old"`. -/
theorem c7_http_failure_witness :
    ({ ok := false, status := 500, content := [] } : HttpResp).ok = false ∧
    (generateRegular "old".toList { ok := false, status := 500, content := [] }
        = ("old".toList, some ("Error: HTTP error! status: ".toList ++ natToStr 500)) ∧
    stateOf (generateRegular "old".toList { ok := false, status := 500, content := [] })
        = OrchState.Failed ∧
    natToStr 500 <:+ ("Error: HTTP error! status: ".toList ++ natToStr 500)) :=
  ⟨rfl, c7_http_failure "old".toList { ok := false, status := 500, content := [] } rfl⟩

/-- Helper: the content component of a streaming run is the accumulation of
the parsed chunks, whatever the error outcome. -/
lemma generateStreaming_fst (chunks : List Str) (netErr : Option Str) :
    (generateStreaming chunks netErr).1 = (processChunks [] chunks).1 := by
  unfold generateStreaming
  cases processChunks [] chunks with
  | mk c e => cases e <;> cases netErr <;> rfl

/-- C8: `handleSubmit` resets the result buffer before running the request:
the outcome is independent of whatever state was left by a previous request,
and the final content is exactly the accumulation of the new request starting
from the empty buffer (streaming: the fold of the new deltas; non-streaming:
the new body on success, empty on failure). -/
theorem c8_reset_before_submit (s t : AppState) (us : Bool) (chunks : List Str)
    (netErr : Option Str) (resp : HttpResp) :
    handleSubmit s us chunks netErr resp = handleSubmit t us chunks netErr resp ∧
    (handleSubmit s us chunks netErr resp).content
      = (if us then (processChunks [] chunks).1
         else if resp.ok then resp.content else []) := by
  refine ⟨rfl, ?_⟩
  cases us with
  | true => simpa [handleSubmit] using generateStreaming_fst chunks netErr
  | false =>
    simp only [handleSubmit, generateRegular, Bool.false_eq_true, if_false]
    split_ifs <;> rfl

/-! ### Listing variant: regenerate-section failure paths -/

/-- Outcome of a `/regenerate-section` call as seen by the handlers:
`netFail msg` models a rejected `fetch` (or a failing `response.json()`)
whose error message is `msg`; `http ok content` models an HTTP response,
`content` being the body's `content` field when `ok`. -/
inductive RegenResp where
  | netFail (msg : Str)
  | http (ok : Bool) (content : Str)
deriving DecidableEq, Repr

/-- Output-side React state of the listing variant. -/
structure ListingState where
  description : Str
  socialCaption : Str
  error : Str
  isRegenDesc : Bool
  isRegenSocial : Bool
deriving DecidableEq, Repr

/-- `handleRegenerateDescription` (App.jsx lines 453-470): on success the
description is replaced by `data.content`; a non-ok response throws
`'Failed to regenerate'` and a network failure rejects with its own message —
either way the `catch` sets only `error` and the `finally` clears the
in-flight flag. -/
def handleRegenerateDescription (s : ListingState) (r : RegenResp) : ListingState :=
  match r with
  | RegenResp.netFail msg => { s with error := msg, isRegenDesc := false }
  | RegenResp.http ok content =>
    if ok then { s with description := content, isRegenDesc := false }
    else { s with error := "Failed to regenerate".toList, isRegenDesc := false }

/-- `handleRegenerateSocial` (App.jsx lines 472-489): same shape as
`handleRegenerateDescription`, updating the social caption instead. -/
def handleRegenerateSocial (s : ListingState) (r : RegenResp) : ListingState :=
  match r with
  | RegenResp.netFail msg => { s with error := msg, isRegenSocial := false }
  | RegenResp.http ok content =>
    if ok then { s with socialCaption := content, isRegenSocial := false }
    else { s with error := "Failed to regenerate".toList, isRegenSocial := false }

/-- C10: a failed regeneration (non-ok response or network error) of either
section leaves both the description and the social caption exactly as they
were and only sets the error message (`'Failed to regenerate'` for a non-ok
response, the rejection message for a network failure). -/
theorem c10_regen_failure_preserves (s : ListingState) (msg content : Str) :
    ((handleRegenerateDescription s (RegenResp.netFail msg)).description = s.description ∧
     (handleRegenerateDescription s (RegenResp.netFail msg)).socialCaption = s.socialCaption ∧
     (handleRegenerateDescription s (RegenResp.netFail msg)).error = msg) ∧
    ((handleRegenerateDescription s (RegenResp.http false content)).description = s.description ∧
     (handleRegenerateDescription s (RegenResp.http false content)).socialCaption = s.socialCaption ∧
     (handleRegenerateDescription s (RegenResp.http false content)).error
        = "Failed to regenerate".toList) ∧
    ((handleRegenerateSocial s (RegenResp.netFail msg)).description = s.description ∧
     (handleRegenerateSocial s (RegenResp.netFail msg)).socialCaption = s.socialCaption ∧
     (handleRegenerateSocial s (RegenResp.netFail msg)).error = msg) ∧
    ((handleRegenerateSocial s (RegenResp.http false content)).description = s.description ∧
     (handleRegenerateSocial s (RegenResp.http false content)).socialCaption = s.socialCaption ∧
     (handleRegenerateSocial s (RegenResp.http false content)).error
        = "Failed to regenerate".toList) := by
  refine ⟨⟨rfl, rfl, rfl⟩, ⟨?_, ?_, ?_⟩, ⟨rfl, rfl, rfl⟩, ⟨?_, ?_, ?_⟩⟩ <;>
    simp [handleRegenerateDescription, handleRegenerateSocial]

/-! ### Listing variant: `renderMarkdown`

`renderMarkdown` (App.jsx lines 339-348) splits the text with
`text.split(/(\*\*.*?\*\*)/g)` — the capture group makes the matches appear
in the output array, alternating with the unmatched stretches — and renders
each part: a part that starts **and** ends with `**` becomes
`<strong>{part.slice(2, -2)}</strong>`, any other part is rendered verbatim.
The regex is embedded below: `.` matches anything but a line terminator, and
`.*?` is lazy, so a match beginning at a given position is `**`, then the
shortest run of non-terminator characters, then the first following `**`. -/

/-- JS regex line terminators (the characters `.` does not match). -/
def isLineTerm (ch : Char) : Bool :=
  ch = '\n' || ch = '\r' || ch = '\u2028' || ch = '\u2029'

/-- Lazy search for the closing `**` of the regex `\*\*.*?\*\*` after the
opening delimiter: at each step the engine first tries `\*\*`, then lets
`.*?` consume one more non-terminator character.  Returns the inner text and
the remainder after the closing `**`, or `none` when no close is reachable. -/
def findClose : Str → Option (Str × Str)
  | [] => none
  | ch :: rest =>
    if "**".toList.isPrefixOf (ch :: rest) then some ([], rest.drop 1)
    else if isLineTerm ch then none
    else (findClose rest).map (fun p => (ch :: p.1, p.2))

/-- A match of `\*\*.*?\*\*` anchored at the start of `s`: the whole matched
text (delimiters included) and the remainder of the string. -/
def matchBoldAt (s : Str) : Option (Str × Str) :=
  if "**".toList.isPrefixOf s then
    (findClose (s.drop 2)).map (fun p => ('*' :: '*' :: (p.1 ++ ['*', '*']), p.2))
  else none

/-- `text.split(/(\*\*.*?\*\*)/g)` with the capture group included: scan for
the leftmost match, emit the preceding unmatched stretch (possibly empty,
tagged `false`) and the match (tagged `true`), continue after it; the
trailing unmatched stretch is always emitted, as JS split does.  `fuel`
bounds the recursion; every step consumes at least one character, so
`fuel = s.length` (used by `splitBold`) never runs out — the fuel-exhausted
clause dumps the remainder unchanged and is unreachable from `splitBold`. -/
def splitBoldAux : Nat → Str → Str → List (Str × Bool)
  | 0, acc, s => [(acc.reverse ++ s, false)]
  | fuel + 1, acc, s =>
    match s with
    | [] => [(acc.reverse, false)]
    | ch :: rest =>
      match matchBoldAt (ch :: rest) with
      | some (m, rem) => (acc.reverse, false) :: (m, true) :: splitBoldAux fuel [] rem
      | none => splitBoldAux fuel (ch :: acc) rest

/-- The parts of `text.split(/(\*\*.*?\*\*)/g)`, each tagged with whether it
is a regex match (`true`) or an unmatched stretch (`false`). -/
def splitBold (s : Str) : List (Str × Bool) := splitBoldAux s.length [] s

/-- JS `part.slice(2, -2)`: drop the first two and last two characters
(empty when the part has four characters or fewer). -/
def jsSlice2m2 (s : Str) : Str := (s.take (s.length - 2)).drop 2

/-- The per-part rendering of `renderMarkdown` (lines 343-346): any part that
starts with `**` and ends with `**` — matched or not — is emphasized with its
first and last two characters stripped; every other part is kept verbatim.
Returns the rendered text and whether it is wrapped in `<strong>`. -/
def renderPart (p : Str) : Str × Bool :=
  if "**".toList.isPrefixOf p && "**".toList.isSuffixOf p then (jsSlice2m2 p, true)
  else (p, false)

/-- `renderMarkdown` (lines 339-348): `null` (here `[]`) for empty input,
otherwise the rendered parts in order. -/
def renderMarkdown (text : Str) : List (Str × Bool) :=
  if text = [] then [] else (splitBold text).map (fun q => renderPart q.1)

/-- The concatenated text of the rendered segments, in order. -/
def renderedText (text : Str) : Str := ((renderMarkdown text).map Prod.fst).flatten

/-- The output the claim describes: the input with exactly the `**`
delimiters of each regex-matched pair removed and every unmatched stretch
kept verbatim. -/
def strippedMatched (text : Str) : Str :=
  ((splitBold text).map (fun q => if q.2 then jsSlice2m2 q.1 else q.1)).flatten

/-- Helper: a successful `findClose` decomposes its input as
inner text, closing `**`, remainder. -/
lemma findClose_eq : ∀ (l a b : Str), findClose l = some (a, b) →
    l = a ++ '*' :: '*' :: b := by
  intro l
  induction l with
  | nil => intro a b h; exact absurd h (by simp [findClose])
  | cons ch rest ih =>
    intro a b h
    simp only [findClose] at h
    split_ifs at h with h1 h2
    · have ha : ([] : Str) = a := congrArg Prod.fst (Option.some.inj h)
      have hb : rest.drop 1 = b := congrArg Prod.snd (Option.some.inj h)
      subst ha
      subst hb
      obtain ⟨t, ht⟩ := List.isPrefixOf_iff_prefix.mp h1
      have ht' : ('*' :: '*' :: t : Str) = ch :: rest := ht
      injection ht' with hc hr
      subst hc
      subst hr
      rfl
    · cases hfc : findClose rest with
      | none => rw [hfc] at h; exact absurd h (by simp)
      | some p =>
        obtain ⟨a', b'⟩ := p
        rw [hfc] at h
        have ha : ch :: a' = a := congrArg Prod.fst (Option.some.inj h)
        have hb : b' = b := congrArg Prod.snd (Option.some.inj h)
        subst ha
        subst hb
        rw [ih a' b' hfc]
        rfl

/-- Helper: a successful anchored match decomposes the string as the match
followed by the remainder, and the matched text is `**inner**`. -/
lemma matchBoldAt_some (s m rem : Str) (h : matchBoldAt s = some (m, rem)) :
    s = m ++ rem ∧ ∃ inner, m = '*' :: '*' :: (inner ++ ['*', '*']) := by
  unfold matchBoldAt at h
  split_ifs at h with h1
  · cases hfc0 : findClose (s.drop 2) with
    | none => rw [hfc0] at h; exact absurd h (by simp)
    | some p =>
      obtain ⟨inner, rem'⟩ := p
      rw [hfc0] at h
      have hm : '*' :: '*' :: (inner ++ ['*', '*']) = m :=
        congrArg Prod.fst (Option.some.inj h)
      have hr : rem' = rem := congrArg Prod.snd (Option.some.inj h)
      subst hm
      subst hr
      obtain ⟨t, ht⟩ := List.isPrefixOf_iff_prefix.mp h1
      have ht' : ('*' :: '*' :: t : Str) = s := ht
      have hdrop : s.drop 2 = t := by rw [← ht']; rfl
      have h2 := findClose_eq _ _ _ hfc0
      rw [hdrop] at h2
      refine ⟨?_, inner, rfl⟩
      rw [← ht', h2]
      simp

/-- Helper: every part that `splitBold` tags as a regex match has the shape
`**inner**`. -/
lemma splitBoldAux_true_shape :
    ∀ (fuel : Nat) (acc s : Str) (q : Str × Bool), q ∈ splitBoldAux fuel acc s →
      q.2 = true → ∃ inner, q.1 = '*' :: '*' :: (inner ++ ['*', '*']) := by
  intro fuel
  induction fuel with
  | zero =>
    intro acc s q hq ht
    simp only [splitBoldAux, List.mem_singleton] at hq
    rw [hq] at ht
    exact absurd ht (by simp)
  | succ n ih =>
    intro acc s q hq ht
    cases s with
    | nil =>
      simp only [splitBoldAux, List.mem_singleton] at hq
      rw [hq] at ht
      exact absurd ht (by simp)
    | cons ch rest =>
      simp only [splitBoldAux] at hq
      split at hq
      · rename_i m rem hm
        simp only [List.mem_cons] at hq
        rcases hq with hq | hq | hq
        · rw [hq] at ht; exact absurd ht (by simp)
        · obtain ⟨inner, hi⟩ := (matchBoldAt_some _ _ _ hm).2
          exact ⟨inner, by rw [hq]; exact hi⟩
        · exact ih [] rem q hq ht
      · exact ih (ch :: acc) rest q hq ht

/-- Helper: `slice(2, -2)` of `**inner**` is `inner`. -/
lemma jsSlice2m2_shape (inner : Str) :
    jsSlice2m2 ('*' :: '*' :: (inner ++ ['*', '*'])) = inner := by
  unfold jsSlice2m2
  have hl : ('*' :: '*' :: (inner ++ ['*', '*']) : Str).length - 2
      = inner.length + 2 := by
    simp [List.length_append]
  rw [hl, show inner.length + 2 = inner.length + 1 + 1 from rfl,
      List.take_succ_cons, List.take_succ_cons, List.take_left' rfl]
  rfl

/-- Helper: `renderPart` on a regex match `**inner**` emphasizes `inner`. -/
lemma renderPart_matched (inner : Str) :
    renderPart ('*' :: '*' :: (inner ++ ['*', '*'])) = (inner, true) := by
  have hc : ("**".toList.isPrefixOf ('*' :: '*' :: (inner ++ ['*', '*']))
      && "**".toList.isSuffixOf ('*' :: '*' :: (inner ++ ['*', '*']))) = true := by
    rw [Bool.and_eq_true]
    refine ⟨List.isPrefixOf_iff_prefix.mpr ?_, List.isSuffixOf_iff_suffix.mpr ?_⟩
    · exact ⟨inner ++ ['*', '*'], rfl⟩
    · exact ⟨'*' :: '*' :: inner, by simp⟩
  unfold renderPart
  rw [hc, if_pos rfl, jsSlice2m2_shape]

/-- C9 (counterexample): the claim says characters outside matched pairs are
rendered verbatim, so for an input with no regex match the rendered text
should equal the input.  On `"**"` the regex matches nothing (a match needs
at least four characters), yet the per-part check `startsWith('**') &&
endsWith('**')` — both true for the two-character part itself — strips it to
the empty string, so the rendered text is `""` instead of `"**"`. -/
theorem c9_counterexample :
    splitBold "**".toList = [("**".toList, false)] ∧
    renderedText "**".toList = [] ∧
    strippedMatched "**".toList = "**".toList ∧
    renderedText "**".toList ≠ strippedMatched "**".toList := by
  decide

/-- C9 (amended): provided no unmatched part itself both starts and ends with
`**` (the situation of the counterexample, reachable only via overlap as in
`"**"`/`"***"` or via a line terminator between delimiters), the rendering
partitions the input as claimed: the concatenation of the rendered segments
equals the input with exactly the delimiters of each matched pair removed —
matched pairs are rendered as their inner text, unmatched stretches
verbatim. -/
theorem c9_amended_render (text : Str)
    (h : ∀ q ∈ splitBold text, q.2 = false →
        ("**".toList.isPrefixOf q.1 && "**".toList.isSuffixOf q.1) = false) :
    renderedText text = strippedMatched text := by
  by_cases ht : text = []
  · subst ht; rfl
  · unfold renderedText strippedMatched renderMarkdown
    rw [if_neg ht, List.map_map]
    congr 1
    refine List.map_congr_left ?_
    intro q hq
    simp only [Function.comp_apply]
    by_cases h2 : q.2 = true
    · obtain ⟨inner, hsh⟩ := splitBoldAux_true_shape _ _ _ q hq h2
      rw [h2, if_pos rfl, hsh, renderPart_matched, jsSlice2m2_shape]
    · have h2' : q.2 = false := by
        cases hqq : q.2
        · rfl
        · exact absurd hqq h2
      have hneg : ¬(("**".toList.isPrefixOf q.1 && "**".toList.isSuffixOf q.1) = true) := by
        rw [h q hq h2']
        simp
      rw [h2', if_neg (by simp)]
      unfold renderPart
      rw [if_neg hneg]

/-- C9 witness for the amended claim at `"a **b** c"`: the split is
`["a ", "**b**", " c"]`, no unmatched part is `**`-delimited, and the
rendered text `"a b c"` is the input with the matched delimiters removed. -/
theorem c9_amended_render_witness :
    (∀ q ∈ splitBold "a **b** c".toList, q.2 = false →
        ("**".toList.isPrefixOf q.1 && "**".toList.isSuffixOf q.1) = false) ∧
    renderedText "a **b** c".toList = strippedMatched "a **b** c".toList :=
  ⟨by decide, c9_amended_render "a **b** c".toList (by decide)⟩

end App
